import Mathlib

/-!
Shallow embedding of the FinBench core: the market indicator calculator
(`market` package), the scoring engine, the response parser and the
benchmark statistics aggregator (`benchmark` package).

Go `float64` arithmetic is modelled by exact rational arithmetic on `ℚ`;
the external primitive `math.Sqrt` is abstracted as an explicit function
parameter `sqrt : ℚ → ℚ`, constrained in each theorem only by the
properties of the real square root that the theorem needs.
-/

namespace FinBench

/-- `market.Kline`: one OHLCV candlestick.  The Go field `Open` is renamed
`openPrice` because `open` is a Lean keyword. -/
structure Kline where
  openTime : Int
  openPrice : ℚ
  high : ℚ
  low : ℚ
  close : ℚ
  volume : ℚ
  closeTime : Int
deriving DecidableEq

/-- `market.CalculateEMA`: guard `len < period` returns 0; seed with the SMA of
the first `period` closes; then fold the recurrence
`ema = (close - ema) * multiplier + ema` over the remaining closes in order,
with `multiplier = 2 / (period + 1)`. -/
def CalculateEMA (klines : List Kline) (period : Nat) : ℚ :=
  if klines.length < period then 0
  else
    let seed := ((klines.take period).map Kline.close).foldl (· + ·) 0 / (period : ℚ)
    let multiplier : ℚ := 2 / ((period : ℚ) + 1)
    ((klines.drop period).map Kline.close).foldl
      (fun ema c => (c - ema) * multiplier + ema) seed

/-- `market.CalculateSMA`: mean of the last `period` closes; 0 if the series is
shorter than `period`. -/
def CalculateSMA (klines : List Kline) (period : Nat) : ℚ :=
  if klines.length < period then 0
  else ((klines.drop (klines.length - period)).map Kline.close).foldl (· + ·) 0 / (period : ℚ)

/-- `market.CalculateMACD`: EMA12 - EMA26; 0 if fewer than 26 candles. -/
def CalculateMACD (klines : List Kline) : ℚ :=
  if klines.length < 26 then 0
  else CalculateEMA klines 12 - CalculateEMA klines 26

/-- Candle-to-candle close deltas: element `j` is
`klines[j+1].close - klines[j].close`, matching `change` at loop index
`i = j+1` in `CalculateRSI`. -/
def closeDeltas (klines : List Kline) : List ℚ :=
  List.zipWith (fun a b => a.close - b.close) (klines.drop 1) klines

/-- The initial gains/losses accumulation loop of `market.CalculateRSI`
(indices 1..period): positive changes are added to the first component,
magnitudes of non-positive changes to the second. -/
def rsiInit (deltas : List ℚ) : ℚ × ℚ :=
  deltas.foldl
    (fun gl change => if change > 0 then (gl.1 + change, gl.2) else (gl.1, gl.2 + -change))
    (0, 0)

/-- One step of the Wilder smoothing loop of `market.CalculateRSI`: the pair is
`(avgGain, avgLoss)`. -/
def wilderStep (period : Nat) (gl : ℚ × ℚ) (change : ℚ) : ℚ × ℚ :=
  if change > 0 then
    ((gl.1 * ((period : ℚ) - 1) + change) / (period : ℚ),
     gl.2 * ((period : ℚ) - 1) / (period : ℚ))
  else
    (gl.1 * ((period : ℚ) - 1) / (period : ℚ),
     (gl.2 * ((period : ℚ) - 1) + -change) / (period : ℚ))

/-- `market.CalculateRSI`, Wilder smoothing method.  Guard `len <= period`
returns 0; seed the averages from the first `period` deltas; apply the Wilder
recurrence to the remaining deltas; if the final average loss is exactly 0 the
result is 100, otherwise `100 - 100 / (1 + avgGain / avgLoss)`. -/
def CalculateRSI (klines : List Kline) (period : Nat) : ℚ :=
  if klines.length ≤ period then 0
  else
    let deltas := closeDeltas klines
    let init := rsiInit (deltas.take period)
    let seeded : ℚ × ℚ := (init.1 / (period : ℚ), init.2 / (period : ℚ))
    let final := (deltas.drop period).foldl (wilderStep period) seeded
    if final.2 = 0 then 100 else 100 - 100 / (1 + final.1 / final.2)

/-- True range of a candle given the previous candle, as in
`market.CalculateATR`. -/
def trueRange (prev cur : Kline) : ℚ :=
  max (cur.high - cur.low) (max |cur.high - prev.close| |cur.low - prev.close|)

/-- The true ranges at indices 1..len-1 (`trs[1..]` in `market.CalculateATR`;
`trs[0]` is never read by the summation loops, which start at index 1). -/
def trueRanges (klines : List Kline) : List ℚ :=
  List.zipWith (fun cur prev => trueRange prev cur) (klines.drop 1) klines

/-- `market.CalculateATR`, Wilder smoothing.  Guard `len <= period` returns 0;
seed with the mean of the first `period` true ranges; then fold
`atr = (atr * (period - 1) + tr) / period` over the remaining true ranges. -/
def CalculateATR (klines : List Kline) (period : Nat) : ℚ :=
  if klines.length ≤ period then 0
  else
    let trs := trueRanges klines
    let seed := (trs.take period).foldl (· + ·) 0 / (period : ℚ)
    (trs.drop period).foldl
      (fun atr tr => (atr * ((period : ℚ) - 1) + tr) / (period : ℚ)) seed

/-- `market.CalculateBOLL`: Bollinger bands `(upper, middle, lower)`.  Guard
`len < period` returns `(0, 0, 0)`; middle is the SMA of the last `period`
closes; the standard deviation is `math.Sqrt` (abstracted as `sqrt`) of the sum
of squared deviations divided by `period` (population divisor). -/
def CalculateBOLL (sqrt : ℚ → ℚ) (klines : List Kline) (period : Nat)
    (multiplier : ℚ) : ℚ × ℚ × ℚ :=
  if klines.length < period then (0, 0, 0)
  else
    let window := (klines.drop (klines.length - period)).map Kline.close
    let sma := window.foldl (· + ·) 0 / (period : ℚ)
    let variance := (window.map (fun c => (c - sma) * (c - sma))).foldl (· + ·) 0
    let stdDev := sqrt (variance / (period : ℚ))
    (sma + multiplier * stdDev, sma, sma - multiplier * stdDev)

/-- `market.CalculateVolumeMA`: mean of the last `period` volumes; 0 if the
series is shorter than `period`. -/
def CalculateVolumeMA (klines : List Kline) (period : Nat) : ℚ :=
  if klines.length < period then 0
  else ((klines.drop (klines.length - period)).map Kline.volume).foldl (· + ·) 0 / (period : ℚ)

/-- `benchmark.ScoreFromError`: tiered step function on the absolute error
percentage. -/
def ScoreFromError (errorPct : ℚ) : ℚ :=
  let e := |errorPct|
  if e ≤ 1/10 then 100
  else if e ≤ 1 then 80
  else if e ≤ 5 then 60
  else if e ≤ 10 then 40
  else 0

/-- `benchmark.CalculateError`: percentage error between expected and actual
values, with the expected-zero cases special-cased to avoid division by
zero. -/
def CalculateError (expected actual : ℚ) : ℚ :=
  if expected = 0 then
    if actual = 0 then 0 else 100
  else |expected - actual| / |expected| * 100

/-- A JSON value, as decoded by the Go standard library `encoding/json`
syntax layer (external to this repository); numbers are modelled as exact
rationals. -/
inductive Json where
  | null : Json
  | bool : Bool → Json
  | num : ℚ → Json
  | str : String → Json
  | arr : List Json → Json
  | obj : List (String × Json) → Json

/-- `benchmark.IndicatorResult`: the ten indicator values.  The Go zero value
(all fields 0) is the starting point of `json.Unmarshal`. -/
structure IndicatorResult where
  MA20 : ℚ
  EMA12 : ℚ
  EMA26 : ℚ
  MACD : ℚ
  RSI14 : ℚ
  BOLLUp : ℚ
  BOLLMid : ℚ
  BOLLLow : ℚ
  ATR14 : ℚ
  VolumeMA : ℚ
deriving DecidableEq

/-- The Go zero value of `IndicatorResult` (`var result IndicatorResult`). -/
def IndicatorResult.zero : IndicatorResult :=
  ⟨0, 0, 0, 0, 0, 0, 0, 0, 0, 0⟩

/-- The ten JSON field tags of `IndicatorResult`, in struct order. -/
def indicatorKeys : List String :=
  ["ma20", "ema12", "ema26", "macd", "rsi14",
   "boll_upper", "boll_middle", "boll_lower", "atr14", "volume_ma5"]

/-- Write one decoded numeric JSON field into an `IndicatorResult` by its tag;
unknown keys are ignored, as `encoding/json` does by default. -/
def setIndicatorField (r : IndicatorResult) (key : String) (v : ℚ) : IndicatorResult :=
  if key = "ma20" then { r with MA20 := v }
  else if key = "ema12" then { r with EMA12 := v }
  else if key = "ema26" then { r with EMA26 := v }
  else if key = "macd" then { r with MACD := v }
  else if key = "rsi14" then { r with RSI14 := v }
  else if key = "boll_upper" then { r with BOLLUp := v }
  else if key = "boll_middle" then { r with BOLLMid := v }
  else if key = "boll_lower" then { r with BOLLLow := v }
  else if key = "atr14" then { r with ATR14 := v }
  else if key = "volume_ma5" then { r with VolumeMA := v }
  else r

/-- Read an `IndicatorResult` field by its JSON tag (0 for unknown keys);
used only to state properties. -/
def getIndicatorField (r : IndicatorResult) (key : String) : ℚ :=
  if key = "ma20" then r.MA20
  else if key = "ema12" then r.EMA12
  else if key = "ema26" then r.EMA26
  else if key = "macd" then r.MACD
  else if key = "rsi14" then r.RSI14
  else if key = "boll_upper" then r.BOLLUp
  else if key = "boll_middle" then r.BOLLMid
  else if key = "boll_lower" then r.BOLLLow
  else if key = "atr14" then r.ATR14
  else if key = "volume_ma5" then r.VolumeMA
  else 0

/-- Modelled from the documented semantics of the Go standard library
`json.Unmarshal` into a struct of `float64` fields (external to this
repository): the value must be an object; its members are processed in order;
a member whose key matches a field tag stores its numeric value into that
field (a JSON null leaves the field unchanged, any other non-number value is a
type error); members with unknown keys are skipped; fields for absent keys
keep the zero value. -/
def unmarshalIndicatorResult (j : Json) : Option IndicatorResult :=
  match j with
  | Json.obj members =>
      members.foldlM
        (fun r kv =>
          match kv.2 with
          | Json.num v => some (setIndicatorField r kv.1 v)
          | Json.null => some r
          | _ => if kv.1 ∈ indicatorKeys then none else some r)
        IndicatorResult.zero
  | _ => none

/-- The fallback branch of `benchmark.ParseIndicatorResponse`: the regex
extraction of a braced substring containing `"ma20"` and, failing that, the
first-brace/last-brace substring; both string searches are external primitives
abstracted as parameters. -/
def parseExtracted (parse : String → Option Json)
    (regexExtract braceExtract : String → Option String)
    (response : String) : Option IndicatorResult :=
  match regexExtract response with
  | some m => parse m >>= unmarshalIndicatorResult
  | none =>
      match braceExtract response with
      | some m => parse m >>= unmarshalIndicatorResult
      | none => none

/-- `benchmark.ParseIndicatorResponse`: try a direct `json.Unmarshal` of the
whole response (modelled as the external `parse` composed with
`unmarshalIndicatorResult`); on any failure fall back to substring
extraction. -/
def ParseIndicatorResponse (parse : String → Option Json)
    (regexExtract braceExtract : String → Option String)
    (response : String) : Option IndicatorResult :=
  match parse response >>= unmarshalIndicatorResult with
  | some r => some r
  | none => parseExtracted parse regexExtract braceExtract response

/-- `benchmark.Snapshot`, reduced to the fields the engine control flow
touches. -/
structure Snapshot where
  id : String
  klines : List Kline
deriving DecidableEq

/-- Keep the successful captures, dropping the failed ones, as the realtime
loop of `Engine.Run` does (`continue` on error). -/
def captureKeep (c : Except String Snapshot) : Option Snapshot :=
  match c with
  | Except.ok s => some s
  | Except.error _ => none

/-- The snapshot-acquisition phase of `Engine.Run` (engine.go, step 1).
External effects are abstracted: `loadResult` is what `LoadSnapshots` returns
in static mode, and `captures` is the outcome of `CaptureSnapshot` for each
configured symbol in order, in realtime mode.  In static mode a load error or
an empty snapshot list is returned as an error; in realtime mode failed
captures are logged and skipped.  After this phase `Run` never returns a
non-nil error (it always reaches `return report, nil`), so `Run` returns an
error exactly when this phase does. -/
def engineRunAcquire (mode : String) (datasetDir : String)
    (loadResult : Except String (List Snapshot))
    (captures : List (Except String Snapshot)) : Except String (List Snapshot) :=
  if mode = "static" then
    match loadResult with
    | Except.error e => Except.error ("load snapshots: " ++ e)
    | Except.ok snaps =>
        if snaps.length = 0 then Except.error ("no snapshots found in " ++ datasetDir)
        else Except.ok snaps
  else
    Except.ok (captures.filterMap captureKeep)

/-- `benchmark.IndicatorScores`: per-indicator tier scores. -/
structure IndicatorScores where
  MA20 : ℚ
  EMA12 : ℚ
  EMA26 : ℚ
  MACD : ℚ
  RSI14 : ℚ
  BOLLUp : ℚ
  BOLLMid : ℚ
  BOLLLow : ℚ
  ATR14 : ℚ
  VolumeMA : ℚ
deriving DecidableEq

/-- `benchmark.BenchResult`, reduced to the fields `calculateStatistics`
reads.  `LatencyMs` stands for `float64(r.Latency.Milliseconds())`. -/
structure BenchResult where
  Model : String
  TotalScore : ℚ
  LatencyMs : ℚ
  Scores : Option IndicatorScores
  Error : String
deriving DecidableEq

/-- Per-indicator score projection by map key, as used when
`calculateStatistics` fills `indicatorSums`. -/
def scoreKey (s : IndicatorScores) (k : String) : ℚ :=
  if k = "ma20" then s.MA20
  else if k = "ema12" then s.EMA12
  else if k = "ema26" then s.EMA26
  else if k = "macd" then s.MACD
  else if k = "rsi14" then s.RSI14
  else if k = "boll_upper" then s.BOLLUp
  else if k = "boll_middle" then s.BOLLMid
  else if k = "boll_lower" then s.BOLLLow
  else if k = "atr14" then s.ATR14
  else if k = "volume_ma5" then s.VolumeMA
  else 0

/-- `benchmark.ModelStatistics`.  The Go map `IndicatorAvgs` is modelled as a
partial function from map keys: `none` means the key is absent. -/
structure ModelStatistics where
  Model : String
  RunCount : Nat
  SuccessCount : Nat
  FailureCount : Nat
  AvgScore : ℚ
  MinScore : ℚ
  MaxScore : ℚ
  StdDev : ℚ
  AvgLatencyMs : ℚ
  MinLatencyMs : ℚ
  MaxLatencyMs : ℚ
  Consistency : ℚ
  IndicatorAvgs : String → Option ℚ

/-- `benchmark.average`. -/
def average (values : List ℚ) : ℚ :=
  if values.length = 0 then 0
  else values.foldl (· + ·) 0 / (values.length : ℚ)

/-- The Go helper `min` of engine.go (renamed: `min` collides with the Lean
order operation): first element, folded with the binary minimum. -/
def minOf (values : List ℚ) : ℚ :=
  match values with
  | [] => 0
  | v :: rest => rest.foldl min v

/-- The Go helper `max` of engine.go (renamed as `minOf` is). -/
def maxOf (values : List ℚ) : ℚ :=
  match values with
  | [] => 0
  | v :: rest => rest.foldl max v

/-- `benchmark.stdDev`: sample standard deviation (divisor `n - 1`), 0 for
fewer than two values; `math.Sqrt` abstracted as `sqrt`. -/
def stdDev (sqrt : ℚ → ℚ) (values : List ℚ) : ℚ :=
  if values.length < 2 then 0
  else
    let avg := average values
    let sumSquares := (values.map (fun v => (v - avg) * (v - avg))).foldl (· + ·) 0
    sqrt (sumSquares / ((values.length : ℚ) - 1))

/-- The per-model body of `benchmark.calculateStatistics`, applied to the
results `rs` of a single model.  The loop over `rs` is modelled functionally:
failed results (non-empty `Error`) are counted and skipped; successful ones
contribute their score, latency and (when present) indicator scores.  The
aggregate fields are filled only when at least one score was collected, as in
the `len(scores) > 0` block. -/
def statsForModel (sqrt : ℚ → ℚ) (model : String) (rs : List BenchResult) :
    ModelStatistics :=
  let succ := rs.filter fun r => r.Error == ""
  let scores := succ.map BenchResult.TotalScore
  let latencies := succ.map BenchResult.LatencyMs
  let scored := succ.filterMap BenchResult.Scores
  let base : ModelStatistics :=
    { Model := model
      RunCount := rs.length
      SuccessCount := succ.length
      FailureCount := (rs.filter fun r => !(r.Error == "")).length
      AvgScore := 0, MinScore := 0, MaxScore := 0, StdDev := 0
      AvgLatencyMs := 0, MinLatencyMs := 0, MaxLatencyMs := 0
      Consistency := 0
      IndicatorAvgs := fun _ => none }
  if scores.length > 0 then
    let avg := average scores
    let sd := stdDev sqrt scores
    { base with
      AvgScore := avg
      MinScore := minOf scores
      MaxScore := maxOf scores
      StdDev := sd
      AvgLatencyMs := average latencies
      MinLatencyMs := minOf latencies
      MaxLatencyMs := maxOf latencies
      Consistency :=
        if avg > 0 then
          let c := 100 - sd / avg * 100
          if c < 0 then 0 else c
        else 0
      IndicatorAvgs := fun k =>
        if 0 < scored.length ∧ k ∈ indicatorKeys then
          some (((scored.map fun s => scoreKey s k).foldl (· + ·) 0) / (scored.length : ℚ))
        else none }
  else base

/-- The distinct model names of a result list, in order of first appearance.
Go iterates the grouping map in an unspecified order and then sorts the
statistics by descending average score with an unstable sort; since neither
order is a contract (and no claim concerns it), the model fixes
first-appearance order and omits the final reordering. -/
def modelNames (results : List BenchResult) : List String :=
  (results.map BenchResult.Model).dedup

/-- `benchmark.calculateStatistics`: group the results by model name and
compute the per-model statistics of each group. -/
def calculateStatistics (sqrt : ℚ → ℚ) (results : List BenchResult) :
    List ModelStatistics :=
  (modelNames results).map fun m =>
    statsForModel sqrt m (results.filter fun r => r.Model == m)

/-- The EMA computation written from the words of the specification (for the
refinement claim): seed with the arithmetic mean of the closes of the FIRST
`period` candles (the oldest window, not the trailing one); then, for each
index `i` from `period` to `L - 1` in chronological order, update
`ema := (close_i - ema) * k + ema` with `k = 2 / (period + 1)`. -/
def emaSpec (klines : List Kline) (period : Nat) : ℚ :=
  let closes := klines.map Kline.close
  let seed := (closes.take period).sum / (period : ℚ)
  let k : ℚ := 2 / ((period : ℚ) + 1)
  (List.range' period (klines.length - period)).foldl
    (fun ema i => (closes.getD i 0 - ema) * k + ema) seed

/-- The RSI computation written from the words of the specification (for the
refinement claim), with explicit indexing: the deltas of close at indices
1..period seed `avgGain` with the mean of the positive deltas and `avgLoss`
with the mean of the magnitudes of the non-positive deltas; for each
subsequent index the matching average is updated by
`avg = (avg * (period - 1) + contribution) / period` while the other average
is updated with contribution 0; if the final `avgLoss` is exactly 0 the
result is 100, otherwise `100 - 100 / (1 + avgGain / avgLoss)`. -/
def rsiSpec (klines : List Kline) (period : Nat) : ℚ :=
  let closes := klines.map Kline.close
  let delta := fun i => closes.getD i 0 - closes.getD (i - 1) 0
  let avgGain := (((List.range' 1 period).map fun i =>
    if delta i > 0 then delta i else 0).sum) / (period : ℚ)
  let avgLoss := (((List.range' 1 period).map fun i =>
    if delta i > 0 then 0 else -delta i).sum) / (period : ℚ)
  let final := (List.range' (period + 1) (klines.length - (period + 1))).foldl
    (fun avg i =>
      if delta i > 0 then
        ((avg.1 * ((period : ℚ) - 1) + delta i) / (period : ℚ),
         avg.2 * ((period : ℚ) - 1) / (period : ℚ))
      else
        (avg.1 * ((period : ℚ) - 1) / (period : ℚ),
         (avg.2 * ((period : ℚ) - 1) + -delta i) / (period : ℚ)))
    (avgGain, avgLoss)
  if final.2 = 0 then 100 else 100 - 100 / (1 + final.1 / final.2)

/-! General list lemmas used by the refinement proofs. -/

theorem map_getD_range' {α : Type} (l : List α) (d : α) (s n : Nat)
    (h : s + n ≤ l.length) :
    (List.range' s n).map (fun i => l.getD i d) = (l.drop s).take n := by
  induction n generalizing s with
  | zero => simp
  | succ n ih =>
    have hs : s < l.length := by omega
    rw [List.range'_succ s n 1, List.map_cons, ih (s + 1) (by omega)]
    rw [List.getD_eq_getElem l d hs, List.drop_eq_getElem_cons hs]
    rfl

theorem map_getD_range'_drop {α : Type} (l : List α) (d : α) (s : Nat)
    (h : s ≤ l.length) :
    (List.range' s (l.length - s)).map (fun i => l.getD i d) = l.drop s := by
  rw [map_getD_range' l d s (l.length - s) (by omega)]
  exact List.take_of_length_le (by rw [List.length_drop])

theorem foldl_drop_eq_foldl_range' {α β : Type} (l : List α) (d : α)
    (f : β → α → β) (b : β) (s : Nat) (h : s ≤ l.length) :
    (l.drop s).foldl f b =
      (List.range' s (l.length - s)).foldl (fun acc i => f acc (l.getD i d)) b := by
  rw [← map_getD_range'_drop l d s h, List.foldl_map]

theorem foldl_add_eq_add_sum (l : List ℚ) (a : ℚ) :
    l.foldl (· + ·) a = a + l.sum := by
  induction l generalizing a with
  | nil => simp
  | cons x t ih =>
    rw [List.foldl_cons, ih, List.sum_cons]
    ring

theorem rsiInit_eq (deltas : List ℚ) :
    rsiInit deltas =
      ((deltas.map fun d => if d > 0 then d else 0).sum,
       (deltas.map fun d => if d > 0 then 0 else -d).sum) := by
  suffices h : ∀ g l : ℚ,
      deltas.foldl
        (fun gl change =>
          if change > 0 then (gl.1 + change, gl.2) else (gl.1, gl.2 + -change))
        (g, l)
      = (g + (deltas.map fun d => if d > 0 then d else 0).sum,
         l + (deltas.map fun d => if d > 0 then 0 else -d).sum) by
    simpa [rsiInit] using h 0 0
  induction deltas with
  | nil => intro g l; simp
  | cons d t ih =>
    intro g l
    by_cases hd : d > 0
    · simp only [List.foldl_cons, List.map_cons, List.sum_cons, if_pos hd, ih,
        Prod.mk.injEq]
      constructor <;> ring
    · simp only [List.foldl_cons, List.map_cons, List.sum_cons, if_neg hd, ih,
        Prod.mk.injEq]
      constructor <;> ring

theorem calculateEMA_eq_emaSpec (klines : List Kline) (period : Nat)
    (h : period ≤ klines.length) :
    CalculateEMA klines period = emaSpec klines period := by
  have hnot : ¬ klines.length < period := by omega
  have hlen : (klines.map Kline.close).length = klines.length := by simp
  simp only [CalculateEMA, emaSpec, if_neg hnot]
  rw [List.map_take, List.map_drop]
  rw [foldl_drop_eq_foldl_range' (klines.map Kline.close) 0 _ _ period
    (by rw [hlen]; exact h)]
  rw [List.sum_eq_foldl, hlen]

theorem foldl_ema_const (k c : ℚ) (l : List ℚ) (hl : ∀ x ∈ l, x = c) :
    l.foldl (fun ema x => (x - ema) * k + ema) c = c := by
  induction l with
  | nil => rfl
  | cons a t ih =>
    rw [List.foldl_cons, hl a (List.mem_cons_self a t)]
    have hstep : (c - c) * k + c = c := by ring
    rw [hstep]
    exact ih fun x hx => hl x (List.mem_cons_of_mem a hx)

theorem calculateEMA_const (klines : List Kline) (period : Nat) (c : ℚ)
    (hp : 0 < period) (h : period ≤ klines.length)
    (hc : ∀ x ∈ klines, x.close = c) :
    CalculateEMA klines period = c := by
  have hnot : ¬ klines.length < period := by omega
  simp only [CalculateEMA, if_neg hnot]
  have htake : (klines.take period).map Kline.close = List.replicate period c := by
    refine List.eq_replicate_iff.2 ⟨by simp [Nat.min_eq_left h], ?_⟩
    intro b hb
    rcases List.mem_map.1 hb with ⟨x, hx, rfl⟩
    exact hc x (List.mem_of_mem_take hx)
  rw [htake, ← List.sum_eq_foldl, List.sum_replicate, nsmul_eq_mul,
    mul_div_cancel_left₀ c (show ((period : ℚ)) ≠ 0 from Nat.cast_ne_zero.2 (by omega))]
  refine foldl_ema_const _ c _ ?_
  intro x hx
  rcases List.mem_map.1 hx with ⟨y, hy, rfl⟩
  exact hc y (List.mem_of_mem_drop hy)

theorem closeDeltas_length (klines : List Kline) :
    (closeDeltas klines).length = klines.length - 1 := by
  simp [closeDeltas, List.length_zipWith]

theorem closeDeltas_getD : ∀ (klines : List Kline) (j : Nat),
    j < klines.length - 1 →
    (closeDeltas klines).getD j 0 =
      (klines.map Kline.close).getD (j + 1) 0 - (klines.map Kline.close).getD j 0
  | [], j, h => by simp at h
  | [_], j, h => by simp at h
  | _ :: _ :: _, 0, _ => by simp [closeDeltas]
  | a :: b :: t, j + 1, h => by
    have ih := closeDeltas_getD (b :: t) j (by simp at h ⊢; omega)
    simpa [closeDeltas] using ih

theorem closeDeltas_take_eq (klines : List Kline) (period : Nat)
    (h : period ≤ klines.length - 1) :
    (closeDeltas klines).take period =
      (List.range' 1 period).map (fun i =>
        (klines.map Kline.close).getD i 0 - (klines.map Kline.close).getD (i - 1) 0) := by
  have h0 : 0 + period ≤ (closeDeltas klines).length := by
    rw [closeDeltas_length]; omega
  have hm := map_getD_range' (closeDeltas klines) 0 0 period h0
  rw [List.drop_zero] at hm
  rw [← hm]
  have hr : List.range' 1 period = (List.range' 0 period).map (fun j => 1 + j) :=
    (List.map_add_range' 1 0 period 1).symm
  rw [hr, List.map_map]
  apply List.map_congr_left
  intro j hj
  have hj' : j < period := by
    have := List.mem_range'_1.1 hj
    omega
  simp only [Function.comp_apply]
  rw [closeDeltas_getD klines j (by omega)]
  have e2 : 1 + j - 1 = j := by omega
  rw [e2, Nat.add_comm 1 j]

theorem closeDeltas_drop_eq (klines : List Kline) (period : Nat)
    (h : period < klines.length) :
    (closeDeltas klines).drop period =
      (List.range' (period + 1) (klines.length - (period + 1))).map (fun i =>
        (klines.map Kline.close).getD i 0 - (klines.map Kline.close).getD (i - 1) 0) := by
  have hd : period ≤ (closeDeltas klines).length := by
    rw [closeDeltas_length]; omega
  rw [← map_getD_range'_drop (closeDeltas klines) 0 period hd, closeDeltas_length]
  have hn : klines.length - (period + 1) = klines.length - 1 - period := by omega
  rw [hn]
  have hr : List.range' (period + 1) (klines.length - 1 - period) =
      (List.range' period (klines.length - 1 - period)).map (fun j => 1 + j) := by
    rw [List.map_add_range', Nat.add_comm 1 period]
  rw [hr, List.map_map]
  apply List.map_congr_left
  intro j hj
  have hj' : period ≤ j ∧ j < period + (klines.length - 1 - period) :=
    List.mem_range'_1.1 hj
  simp only [Function.comp_apply]
  rw [closeDeltas_getD klines j (by omega)]
  have e2 : 1 + j - 1 = j := by omega
  rw [e2, Nat.add_comm 1 j]

theorem calculateRSI_eq_rsiSpec (klines : List Kline) (period : Nat)
    (h : period < klines.length) :
    CalculateRSI klines period = rsiSpec klines period := by
  have hnot : ¬ klines.length ≤ period := by omega
  simp only [CalculateRSI, rsiSpec, if_neg hnot]
  rw [closeDeltas_take_eq klines period (by omega),
    closeDeltas_drop_eq klines period h]
  rw [rsiInit_eq, List.map_map, List.map_map, List.foldl_map]
  simp only [wilderStep, Function.comp_def]

theorem closeDeltas_pos : ∀ (klines : List Kline),
    List.Chain' (· < ·) (klines.map Kline.close) →
    ∀ d ∈ closeDeltas klines, 0 < d
  | [], _, d, hd => by simp [closeDeltas] at hd
  | [_], _, d, hd => by simp [closeDeltas] at hd
  | a :: b :: t, hc, d, hd => by
    rw [List.map_cons, List.map_cons, List.chain'_cons] at hc
    have key : closeDeltas (a :: b :: t) =
        (b.close - a.close) :: closeDeltas (b :: t) := by
      simp [closeDeltas]
    rw [key] at hd
    rcases List.mem_cons.1 hd with h1 | h2
    · rw [h1]; exact sub_pos.2 hc.1
    · exact closeDeltas_pos (b :: t) (by rw [List.map_cons]; exact hc.2) d h2

theorem rsiInit_snd_zero (ds : List ℚ) (h : ∀ d ∈ ds, 0 < d) :
    (rsiInit ds).2 = 0 := by
  rw [rsiInit_eq]
  refine List.sum_eq_zero ?_
  intro x hx
  rcases List.mem_map.1 hx with ⟨d, hd, rfl⟩
  simp [h d hd]

theorem wilder_foldl_snd_zero (period : Nat) : ∀ (ds : List ℚ) (g : ℚ),
    (∀ d ∈ ds, 0 < d) →
    ((ds.foldl (wilderStep period) (g, 0)).2 = 0)
  | [], _, _ => rfl
  | d :: t, g, h => by
    rw [List.foldl_cons]
    have hd : d > 0 := h d (List.mem_cons_self d t)
    have hstep : wilderStep period (g, 0) d =
        ((g * ((period : ℚ) - 1) + d) / (period : ℚ), 0) := by
      simp [wilderStep, if_pos hd]
    rw [hstep]
    exact wilder_foldl_snd_zero period t _ fun x hx => h x (List.mem_cons_of_mem d hx)

theorem calculateRSI_increasing (klines : List Kline) (period : Nat)
    (h : period < klines.length)
    (hinc : List.Chain' (· < ·) (klines.map Kline.close)) :
    CalculateRSI klines period = 100 := by
  have hnot : ¬ klines.length ≤ period := by omega
  simp only [CalculateRSI, if_neg hnot]
  have hpos : ∀ d ∈ closeDeltas klines, 0 < d := closeDeltas_pos klines hinc
  have hsnd0 : (rsiInit ((closeDeltas klines).take period)).2 = 0 :=
    rsiInit_snd_zero _ fun d hd => hpos d (List.mem_of_mem_take hd)
  rw [hsnd0, zero_div]
  have hfold := wilder_foldl_snd_zero period ((closeDeltas klines).drop period)
    ((rsiInit ((closeDeltas klines).take period)).1 / (period : ℚ))
    (fun d hd => hpos d (List.mem_of_mem_drop hd))
  rw [if_pos hfold]

/-- A constant candle, used by the concrete witnesses. -/
def constKline (c : ℚ) : Kline :=
  ⟨0, c, c, c, c, c, 0⟩

/-- C1: for every candle series of length at least `period`, `CalculateEMA`
equals the specification fold `emaSpec`, which seeds with the arithmetic mean
of the closes of the FIRST `period` candles and then updates
`ema := (close_i - ema) * k + ema` with `k = 2 / (period + 1)` for each index
`i` from `period` to `L - 1` in chronological order; in particular a
15-candle series with period 12 whose closes are all 100 yields exactly
100. -/
theorem ema_seed_and_fold (klines : List Kline) (period : Nat)
    (h : period ≤ klines.length) :
    CalculateEMA klines period = emaSpec klines period ∧
    (klines.length = 15 → (∀ x ∈ klines, x.close = 100) →
      CalculateEMA klines 12 = 100) := by
  refine ⟨calculateEMA_eq_emaSpec klines period h, ?_⟩
  intro h15 hc
  exact calculateEMA_const klines 12 100 (by omega) (by omega) hc

theorem ema_seed_and_fold_witness :
    12 ≤ (List.replicate 15 (constKline 100)).length ∧
    (List.replicate 15 (constKline 100)).length = 15 ∧
    (∀ x ∈ List.replicate 15 (constKline 100), x.close = 100) ∧
    CalculateEMA (List.replicate 15 (constKline 100)) 12 = 100 := by
  refine ⟨by simp, by simp, ?_, ?_⟩
  · intro x hx
    rw [List.eq_of_mem_replicate hx]
    rfl
  · exact (ema_seed_and_fold (List.replicate 15 (constKline 100)) 12 (by simp)).2
      (by simp) (fun x hx => by rw [List.eq_of_mem_replicate hx]; rfl)

/-- C3: for every candle series of length greater than `period`,
`CalculateRSI` equals the specification recurrence `rsiSpec` (Wilder seeding
from the deltas at indices 1..period, Wilder updates at every subsequent
index, result 100 when the final average loss is exactly 0, otherwise
`100 - 100 / (1 + avgGain / avgLoss)`); and a series with strictly increasing
closes yields exactly 100. -/
theorem rsi_wilder_and_increasing (klines : List Kline) (period : Nat)
    (h : period < klines.length) :
    CalculateRSI klines period = rsiSpec klines period ∧
    (List.Chain' (· < ·) (klines.map Kline.close) →
      CalculateRSI klines period = 100) := by
  refine ⟨calculateRSI_eq_rsiSpec klines period h, ?_⟩
  intro hinc
  exact calculateRSI_increasing klines period h hinc

/-- An increasing candle list for the RSI witness: closes 0, 1, ..., 14. -/
def incKlines : List Kline :=
  (List.range 15).map fun i => constKline i

theorem rsi_wilder_and_increasing_witness :
    14 < incKlines.length ∧
    List.Chain' (· < ·) (incKlines.map Kline.close) ∧
    CalculateRSI incKlines 14 = 100 := by
  have hchain : List.Chain' (· < ·) (incKlines.map Kline.close) := by
    simp only [incKlines, constKline, List.range_succ, List.range_zero,
      List.nil_append, List.cons_append, List.map_cons, List.map_nil,
      List.chain'_cons, List.chain'_singleton, and_true]
    norm_num
  refine ⟨by decide, hchain, ?_⟩
  exact (rsi_wilder_and_increasing incKlines 14 (by decide)).2 hchain

/-- C2: for a series shorter than the period, SMA/EMA/VolumeMA return the
sentinel 0 and Bollinger returns 0 for all three bands; for a series no longer
than the period, RSI and ATR return 0; in every case the result is a value,
never an error. -/
theorem guard_sentinels (sqrt : ℚ → ℚ) (klines : List Kline) (period : Nat)
    (multiplier : ℚ) :
    (klines.length < period →
      CalculateSMA klines period = 0 ∧
      CalculateEMA klines period = 0 ∧
      CalculateVolumeMA klines period = 0 ∧
      CalculateBOLL sqrt klines period multiplier = (0, 0, 0)) ∧
    (klines.length ≤ period →
      CalculateRSI klines period = 0 ∧
      CalculateATR klines period = 0) := by
  constructor
  · intro h
    exact ⟨by simp [CalculateSMA, h], by simp [CalculateEMA, h],
      by simp [CalculateVolumeMA, h], by simp [CalculateBOLL, h]⟩
  · intro h
    exact ⟨by simp [CalculateRSI, h], by simp [CalculateATR, h]⟩

theorem guard_sentinels_witness :
    ([] : List Kline).length < 1 ∧ ([] : List Kline).length ≤ 1 ∧
    CalculateSMA [] 1 = 0 ∧ CalculateEMA [] 1 = 0 ∧ CalculateVolumeMA [] 1 = 0 ∧
    CalculateBOLL id [] 1 2 = (0, 0, 0) ∧
    CalculateRSI [] 1 = 0 ∧ CalculateATR [] 1 = 0 := by
  have h1 := (guard_sentinels id [] 1 2).1 (by decide)
  have h2 := (guard_sentinels id [] 1 2).2 (by decide)
  exact ⟨by decide, by decide, h1.1, h1.2.1, h1.2.2.1, h1.2.2.2, h2.1, h2.2⟩

theorem calculateBOLL_const (sqrt : ℚ → ℚ) (klines : List Kline) (period : Nat)
    (multiplier c : ℚ) (hp : 0 < period) (hlen : klines.length = period)
    (hc : ∀ x ∈ klines, x.close = c) (hs : sqrt 0 = 0) :
    CalculateBOLL sqrt klines period multiplier = (c, c, c) := by
  have hnot : ¬ klines.length < period := by omega
  simp only [CalculateBOLL, if_neg hnot]
  have hdz : klines.length - period = 0 := by omega
  rw [hdz, List.drop_zero]
  have hwin : klines.map Kline.close = List.replicate period c := by
    refine List.eq_replicate_iff.2 ⟨by simp [hlen], ?_⟩
    intro b hb
    rcases List.mem_map.1 hb with ⟨x, hx, rfl⟩
    exact hc x hx
  simp only [← List.sum_eq_foldl]
  rw [hwin, List.sum_replicate, nsmul_eq_mul,
    mul_div_cancel_left₀ c (show ((period : ℚ)) ≠ 0 from Nat.cast_ne_zero.2 (by omega)),
    List.map_replicate]
  have hzero : (c - c) * (c - c) = (0 : ℚ) := by ring
  rw [hzero, List.sum_replicate, smul_zero, zero_div, hs]
  simp

/-- C4: for a series of length at least `period`, the Bollinger middle band is
the mean of the last `period` closes and the upper/lower bands are middle plus
or minus `multiplier` times the square root of the population variance (sum of
squared deviations from the middle divided by `period`); in particular a
5-close constant-10 window with period 5 yields upper = middle = lower =
10. -/
theorem boll_bands (sqrt : ℚ → ℚ) (klines : List Kline) (period : Nat)
    (multiplier : ℚ) (h : period ≤ klines.length) :
    (CalculateBOLL sqrt klines period multiplier =
      let window := (klines.drop (klines.length - period)).map Kline.close
      let middle := window.sum / (period : ℚ)
      let sd := sqrt ((window.map fun c => (c - middle) * (c - middle)).sum / (period : ℚ))
      (middle + multiplier * sd, middle, middle - multiplier * sd)) ∧
    (sqrt 0 = 0 → klines.length = 5 → (∀ x ∈ klines, x.close = 10) →
      CalculateBOLL sqrt klines 5 multiplier = (10, 10, 10)) := by
  constructor
  · have hnot : ¬ klines.length < period := by omega
    simp only [CalculateBOLL, if_neg hnot, List.sum_eq_foldl]
  · intro hs h5 hc
    exact calculateBOLL_const sqrt klines 5 multiplier 10 (by omega) h5 hc hs

theorem boll_bands_witness :
    5 ≤ (List.replicate 5 (constKline 10)).length ∧
    CalculateBOLL id (List.replicate 5 (constKline 10)) 5 2 = (10, 10, 10) := by
  refine ⟨by simp, ?_⟩
  exact (boll_bands id (List.replicate 5 (constKline 10)) 5 2 (by simp)).2
    rfl (by simp) (fun x hx => by rw [List.eq_of_mem_replicate hx]; rfl)

/-- C5: `ScoreFromError` is a step function of the absolute error with
inclusive upper boundaries 0.1, 1, 5 and 10 for the scores 100, 80, 60 and 40,
0 beyond 10; its value is always one of 0, 40, 60, 80, 100; and the boundary
examples evaluate as stated. -/
theorem score_tiers :
    (∀ e : ℚ,
      (|e| ≤ 1/10 → ScoreFromError e = 100) ∧
      (1/10 < |e| → |e| ≤ 1 → ScoreFromError e = 80) ∧
      (1 < |e| → |e| ≤ 5 → ScoreFromError e = 60) ∧
      (5 < |e| → |e| ≤ 10 → ScoreFromError e = 40) ∧
      (10 < |e| → ScoreFromError e = 0) ∧
      (ScoreFromError e = 0 ∨ ScoreFromError e = 40 ∨ ScoreFromError e = 60 ∨
        ScoreFromError e = 80 ∨ ScoreFromError e = 100)) ∧
    (ScoreFromError (1/10) = 100 ∧ ScoreFromError (10001/100000) = 80 ∧
      ScoreFromError 1 = 80 ∧ ScoreFromError (100001/100000) = 60 ∧
      ScoreFromError 10 = 40 ∧ ScoreFromError (1000001/100000) = 0) := by
  constructor
  · intro e
    simp only [ScoreFromError]
    refine ⟨?_, ?_, ?_, ?_, ?_, ?_⟩ <;> intros <;> split_ifs <;>
      first | rfl | linarith | norm_num
  · refine ⟨?_, ?_, ?_, ?_, ?_, ?_⟩ <;>
      simp only [ScoreFromError] <;>
      rw [abs_of_pos (by norm_num)] <;> norm_num

theorem score_tiers_witness :
    |(1 : ℚ)/10| ≤ 1/10 ∧ ScoreFromError (1/10) = 100 := by
  have habs : |(1 : ℚ)/10| ≤ 1/10 := by
    rw [abs_of_pos (by norm_num : (0:ℚ) < 1/10)]
  exact ⟨habs, (score_tiers.1 (1/10)).1 habs⟩

/-- C6: `CalculateError` is 0 when both arguments are 0, 100 when only the
expected value is 0, and otherwise the absolute relative error times 100;
the three examples evaluate as stated and no division by zero occurs. -/
theorem error_pct (expected actual : ℚ) :
    (expected = 0 → actual = 0 → CalculateError expected actual = 0) ∧
    (expected = 0 → actual ≠ 0 → CalculateError expected actual = 100) ∧
    (expected ≠ 0 → CalculateError expected actual =
      |expected - actual| / |expected| * 100) ∧
    (CalculateError 0 0 = 0 ∧ CalculateError 0 5 = 100 ∧
      CalculateError 100 101 = 1) := by
  refine ⟨?_, ?_, ?_, by norm_num [CalculateError], by norm_num [CalculateError], ?_⟩
  · intro h1 h2
    simp [CalculateError, h1, h2]
  · intro h1 h2
    simp [CalculateError, h1, h2]
  · intro h
    simp [CalculateError, h]
  · have habs : |(100 : ℚ) - 101| = 1 := by
      rw [show (100 : ℚ) - 101 = -1 by norm_num, abs_neg, abs_one]
    norm_num [CalculateError, habs]

theorem error_pct_witness :
    (0 : ℚ) = 0 ∧ CalculateError 0 0 = 0 :=
  ⟨rfl, (error_pct 0 0).1 rfl rfl⟩

/-- C7 counterexample: in realtime mode, a run whose only capture fails ends
the acquisition phase with zero usable snapshots, yet `Engine.Run` does not
return an error — the phase result is `ok []`, not `error`, so the run
proceeds to produce a report. -/
theorem realtime_zero_snapshots_counterexample :
    List.filterMap captureKeep [Except.error "capture failed"] = ([] : List Snapshot) ∧
    engineRunAcquire "realtime" "datasets" (Except.ok [])
      [Except.error "capture failed"] = Except.ok ([] : List Snapshot) := by
  constructor
  · rfl
  · simp [engineRunAcquire, captureKeep]

/-- C7 (amended): the snapshot-acquisition phase of `Engine.Run` is fatal in
static mode when loading fails or yields zero snapshots; in realtime mode a
capture failure only skips that symbol (the run keeps exactly the successful
captures, in order) and the phase never returns an error, even when zero
usable snapshots result. -/
theorem run_acquisition_fatality (dir e : String)
    (loadResult : Except String (List Snapshot))
    (captures : List (Except String Snapshot)) (snaps : List Snapshot) :
    (engineRunAcquire "static" dir (Except.error e) captures =
      Except.error ("load snapshots: " ++ e)) ∧
    (engineRunAcquire "static" dir (Except.ok []) captures =
      Except.error ("no snapshots found in " ++ dir)) ∧
    (snaps ≠ [] → engineRunAcquire "static" dir (Except.ok snaps) captures =
      Except.ok snaps) ∧
    (engineRunAcquire "realtime" dir loadResult captures =
      Except.ok (captures.filterMap captureKeep)) := by
  refine ⟨by simp [engineRunAcquire], by simp [engineRunAcquire], ?_, by simp [engineRunAcquire]⟩
  intro h
  have hlen : snaps.length ≠ 0 := by
    intro hz
    exact h (List.length_eq_zero.1 hz)
  simp [engineRunAcquire, hlen]

theorem run_acquisition_fatality_witness :
    (engineRunAcquire "static" "d" (Except.error "boom") [] =
      Except.error "load snapshots: boom") ∧
    (engineRunAcquire "static" "d" (Except.ok []) [] =
      Except.error "no snapshots found in d") ∧
    (engineRunAcquire "static" "d" (Except.ok [⟨"s", []⟩]) [] =
      Except.ok [⟨"s", []⟩]) ∧
    (engineRunAcquire "realtime" "d" (Except.ok [])
      [Except.error "x", Except.ok ⟨"s", []⟩] = Except.ok [⟨"s", []⟩]) := by
  refine ⟨?_, ?_, ?_, ?_⟩
  · exact (run_acquisition_fatality "d" "boom" (Except.ok []) [] []).1
  · exact (run_acquisition_fatality "d" "boom" (Except.ok []) [] []).2.1
  · exact (run_acquisition_fatality "d" "boom" (Except.ok []) [] [⟨"s", []⟩]).2.2.1
      (by simp)
  · exact ((run_acquisition_fatality "d" "boom" (Except.ok [])
      [Except.error "x", Except.ok ⟨"s", []⟩] []).2.2.2).trans rfl

theorem statsForModel_Model (sqrt : ℚ → ℚ) (m : String) (rs : List BenchResult) :
    (statsForModel sqrt m rs).Model = m := by
  simp only [statsForModel]
  split <;> rfl

theorem statsForModel_counts (sqrt : ℚ → ℚ) (m : String) (rs : List BenchResult) :
    (statsForModel sqrt m rs).RunCount = rs.length ∧
    (statsForModel sqrt m rs).SuccessCount =
      (rs.filter fun r => r.Error == "").length ∧
    (statsForModel sqrt m rs).FailureCount =
      (rs.filter fun r => !(r.Error == "")).length := by
  simp only [statsForModel]
  split <;> exact ⟨rfl, rfl, rfl⟩

theorem length_filter_split {α : Type} (p : α → Bool) (l : List α) :
    (l.filter p).length + (l.filter fun a => !(p a)).length = l.length := by
  induction l with
  | nil => rfl
  | cons a t ih =>
    by_cases h : p a <;> simp [List.filter_cons, h, ← ih] <;> omega

theorem statsForModel_ignores_failures (sqrt : ℚ → ℚ) (m : String)
    (rs : List BenchResult) :
    (statsForModel sqrt m rs).AvgScore =
      (statsForModel sqrt m (rs.filter fun r => r.Error == "")).AvgScore ∧
    (statsForModel sqrt m rs).MinScore =
      (statsForModel sqrt m (rs.filter fun r => r.Error == "")).MinScore ∧
    (statsForModel sqrt m rs).MaxScore =
      (statsForModel sqrt m (rs.filter fun r => r.Error == "")).MaxScore ∧
    (statsForModel sqrt m rs).StdDev =
      (statsForModel sqrt m (rs.filter fun r => r.Error == "")).StdDev ∧
    (statsForModel sqrt m rs).AvgLatencyMs =
      (statsForModel sqrt m (rs.filter fun r => r.Error == "")).AvgLatencyMs ∧
    (statsForModel sqrt m rs).MinLatencyMs =
      (statsForModel sqrt m (rs.filter fun r => r.Error == "")).MinLatencyMs ∧
    (statsForModel sqrt m rs).MaxLatencyMs =
      (statsForModel sqrt m (rs.filter fun r => r.Error == "")).MaxLatencyMs ∧
    (statsForModel sqrt m rs).Consistency =
      (statsForModel sqrt m (rs.filter fun r => r.Error == "")).Consistency ∧
    (statsForModel sqrt m rs).IndicatorAvgs =
      (statsForModel sqrt m (rs.filter fun r => r.Error == "")).IndicatorAvgs := by
  have hff : ((rs.filter fun r => r.Error == "").filter fun r => r.Error == "") =
      rs.filter fun r => r.Error == "" := by
    rw [List.filter_filter]
    apply List.filter_congr
    intro a _
    exact Bool.and_self _
  simp only [statsForModel, hff]
  split <;> exact ⟨rfl, rfl, rfl, rfl, rfl, rfl, rfl, rfl, rfl⟩

/-- C8: in `calculateStatistics`, each emitted per-model record is computed
from exactly the results carrying that model name, so results of one model
never affect another model's statistics; a result with non-empty `Error`
contributes only to its model's `FailureCount` (all score, latency and
per-indicator aggregates are unchanged by failed results); and for every
model, `SuccessCount + FailureCount = RunCount`. -/
theorem failure_isolation (sqrt : ℚ → ℚ) (results results2 : List BenchResult)
    (m : String) (rs : List BenchResult) :
    (∀ st ∈ calculateStatistics sqrt results,
      st = statsForModel sqrt st.Model (results.filter fun r => r.Model == st.Model)) ∧
    ((results.filter fun r => r.Model == m) = (results2.filter fun r => r.Model == m) →
      statsForModel sqrt m (results.filter fun r => r.Model == m) =
        statsForModel sqrt m (results2.filter fun r => r.Model == m)) ∧
    ((statsForModel sqrt m rs).SuccessCount + (statsForModel sqrt m rs).FailureCount =
      (statsForModel sqrt m rs).RunCount) ∧
    ((statsForModel sqrt m rs).FailureCount =
      (rs.filter fun r => !(r.Error == "")).length) ∧
    ((statsForModel sqrt m rs).AvgScore =
      (statsForModel sqrt m (rs.filter fun r => r.Error == "")).AvgScore ∧
     (statsForModel sqrt m rs).MinScore =
      (statsForModel sqrt m (rs.filter fun r => r.Error == "")).MinScore ∧
     (statsForModel sqrt m rs).MaxScore =
      (statsForModel sqrt m (rs.filter fun r => r.Error == "")).MaxScore ∧
     (statsForModel sqrt m rs).StdDev =
      (statsForModel sqrt m (rs.filter fun r => r.Error == "")).StdDev ∧
     (statsForModel sqrt m rs).AvgLatencyMs =
      (statsForModel sqrt m (rs.filter fun r => r.Error == "")).AvgLatencyMs ∧
     (statsForModel sqrt m rs).MinLatencyMs =
      (statsForModel sqrt m (rs.filter fun r => r.Error == "")).MinLatencyMs ∧
     (statsForModel sqrt m rs).MaxLatencyMs =
      (statsForModel sqrt m (rs.filter fun r => r.Error == "")).MaxLatencyMs ∧
     (statsForModel sqrt m rs).IndicatorAvgs =
      (statsForModel sqrt m (rs.filter fun r => r.Error == "")).IndicatorAvgs) := by
  refine ⟨?_, ?_, ?_, ?_, ?_⟩
  · intro st hst
    rcases List.mem_map.1 hst with ⟨mname, _, rfl⟩
    rw [statsForModel_Model]
  · intro h
    rw [h]
  · obtain ⟨h1, h2, h3⟩ := statsForModel_counts sqrt m rs
    rw [h1, h2, h3]
    exact length_filter_split _ rs
  · exact (statsForModel_counts sqrt m rs).2.2
  · obtain ⟨a1, a2, a3, a4, a5, a6, a7, _, a9⟩ :=
      statsForModel_ignores_failures sqrt m rs
    exact ⟨a1, a2, a3, a4, a5, a6, a7, a9⟩

/-- A successful benchmark result used by concrete witnesses. -/
def okResult : BenchResult :=
  ⟨"model-a", 90, 1200, none, ""⟩

/-- A failed benchmark result used by concrete witnesses. -/
def errResult : BenchResult :=
  ⟨"model-a", 0, 0, none, "request failed"⟩

theorem failure_isolation_witness :
    ((statsForModel id "model-a" [okResult, errResult]).SuccessCount +
      (statsForModel id "model-a" [okResult, errResult]).FailureCount =
      (statsForModel id "model-a" [okResult, errResult]).RunCount) ∧
    (statsForModel id "model-a"
        ([okResult, errResult].filter fun r => r.Model == "model-a") =
      statsForModel id "model-a"
        ([okResult, errResult].filter fun r => r.Model == "model-a")) := by
  refine ⟨?_, ?_⟩
  · exact (failure_isolation id [okResult, errResult] [okResult, errResult]
      "model-a" [okResult, errResult]).2.2.1
  · exact (failure_isolation id [okResult, errResult] [okResult, errResult]
      "model-a" [okResult, errResult]).2.1 rfl

theorem ite_clamp (c : ℚ) : (if c < 0 then 0 else c) = max 0 c := by
  rcases lt_or_le c 0 with h | h
  · rw [if_pos h, max_eq_left h.le]
  · rw [if_neg (not_lt.2 h), max_eq_right h]

theorem stdDev_nonneg (sqrt : ℚ → ℚ) (hs : ∀ x : ℚ, 0 ≤ x → 0 ≤ sqrt x)
    (values : List ℚ) : 0 ≤ stdDev sqrt values := by
  unfold stdDev
  split
  · exact le_refl 0
  · next hlen =>
    apply hs
    apply div_nonneg
    · rw [foldl_add_eq_add_sum, zero_add]
      apply List.sum_nonneg
      intro x hx
      rcases List.mem_map.1 hx with ⟨v, _, rfl⟩
      exact mul_self_nonneg _
    · have h2 : 2 ≤ values.length := by omega
      have h2q : (2 : ℚ) ≤ (values.length : ℚ) := by exact_mod_cast h2
      linarith

theorem statsForModel_score_fields (sqrt : ℚ → ℚ) (m : String)
    (rs : List BenchResult)
    (h : 0 < ((rs.filter fun r => r.Error == "").map BenchResult.TotalScore).length) :
    (statsForModel sqrt m rs).AvgScore =
      average ((rs.filter fun r => r.Error == "").map BenchResult.TotalScore) ∧
    (statsForModel sqrt m rs).StdDev =
      stdDev sqrt ((rs.filter fun r => r.Error == "").map BenchResult.TotalScore) ∧
    (statsForModel sqrt m rs).Consistency =
      (if average ((rs.filter fun r => r.Error == "").map BenchResult.TotalScore) > 0 then
        if 100 - stdDev sqrt ((rs.filter fun r => r.Error == "").map BenchResult.TotalScore) /
            average ((rs.filter fun r => r.Error == "").map BenchResult.TotalScore) * 100 < 0
        then 0
        else 100 - stdDev sqrt ((rs.filter fun r => r.Error == "").map BenchResult.TotalScore) /
            average ((rs.filter fun r => r.Error == "").map BenchResult.TotalScore) * 100
      else 0) := by
  simp only [statsForModel, if_pos h]
  exact ⟨trivial, trivial, trivial⟩

/-- C10: for a model with at least one successful run, `StdDev` is the sample
standard deviation (divisor `n - 1`, 0 for fewer than two successes) of the
successful runs' total scores, `Consistency` is `100 - (StdDev/AvgScore)*100`
clamped below at 0 when `AvgScore > 0` and is 0 when `AvgScore = 0`, and
`Consistency` always lies in `[0, 100]` (given that `math.Sqrt` of a
non-negative argument is non-negative). -/
theorem consistency_formula (sqrt : ℚ → ℚ)
    (hsqrt : ∀ x : ℚ, 0 ≤ x → 0 ≤ sqrt x) (m : String) (rs : List BenchResult)
    (h : 0 < ((rs.filter fun r => r.Error == "").map BenchResult.TotalScore).length) :
    ((statsForModel sqrt m rs).StdDev =
      stdDev sqrt ((rs.filter fun r => r.Error == "").map BenchResult.TotalScore)) ∧
    (((rs.filter fun r => r.Error == "").map BenchResult.TotalScore).length < 2 →
      (statsForModel sqrt m rs).StdDev = 0) ∧
    ((statsForModel sqrt m rs).AvgScore > 0 →
      (statsForModel sqrt m rs).Consistency =
        max 0 (100 - (statsForModel sqrt m rs).StdDev /
          (statsForModel sqrt m rs).AvgScore * 100)) ∧
    ((statsForModel sqrt m rs).AvgScore = 0 →
      (statsForModel sqrt m rs).Consistency = 0) ∧
    (0 ≤ (statsForModel sqrt m rs).Consistency ∧
      (statsForModel sqrt m rs).Consistency ≤ 100) := by
  obtain ⟨havg, hsd, hcons⟩ := statsForModel_score_fields sqrt m rs h
  have hsdnn : 0 ≤ stdDev sqrt
      ((rs.filter fun r => r.Error == "").map BenchResult.TotalScore) :=
    stdDev_nonneg sqrt hsqrt _
  refine ⟨hsd, ?_, ?_, ?_, ?_⟩
  · intro hlt
    rw [hsd]
    unfold stdDev
    rw [if_pos hlt]
  · intro hpos
    rw [havg] at hpos
    rw [hcons, havg, hsd, if_pos hpos, ite_clamp]
  · intro hzero
    rw [havg] at hzero
    rw [hcons, hzero]
    simp
  · rw [hcons]
    split
    · next hpos =>
      split
      · next => exact ⟨le_refl 0, by norm_num⟩
      · next hnlt =>
        constructor
        · linarith [not_lt.1 hnlt]
        · have hq : 0 ≤ stdDev sqrt
              ((rs.filter fun r => r.Error == "").map BenchResult.TotalScore) /
              average ((rs.filter fun r => r.Error == "").map BenchResult.TotalScore) * 100 := by
            apply mul_nonneg
            · exact div_nonneg hsdnn (le_of_lt hpos)
            · norm_num
          linarith
    · exact ⟨le_refl 0, by norm_num⟩

theorem consistency_formula_witness :
    (0 < (([okResult].filter fun r => r.Error == "").map
      BenchResult.TotalScore).length) ∧
    (0 ≤ (statsForModel (fun _ => 0) "model-a" [okResult]).Consistency ∧
      (statsForModel (fun _ => 0) "model-a" [okResult]).Consistency ≤ 100) := by
  refine ⟨by decide, ?_⟩
  exact (consistency_formula (fun _ => 0) (fun x _ => le_refl 0) "model-a"
    [okResult] (by decide)).2.2.2.2

set_option maxHeartbeats 2000000 in
theorem getIndicatorField_set_ne (r : IndicatorResult) (key key2 : String)
    (v : ℚ) (h : key ≠ key2) :
    getIndicatorField (setIndicatorField r key v) key2 = getIndicatorField r key2 := by
  simp only [setIndicatorField]
  split_ifs with h1 h2 h3 h4 h5 h6 h7 h8 h9 h10
  · simp only [getIndicatorField,
      if_neg (show ¬ key2 = "ma20" from fun hh => h (h1.trans hh.symm))]
  · simp only [getIndicatorField,
      if_neg (show ¬ key2 = "ema12" from fun hh => h (h2.trans hh.symm))]
  · simp only [getIndicatorField,
      if_neg (show ¬ key2 = "ema26" from fun hh => h (h3.trans hh.symm))]
  · simp only [getIndicatorField,
      if_neg (show ¬ key2 = "macd" from fun hh => h (h4.trans hh.symm))]
  · simp only [getIndicatorField,
      if_neg (show ¬ key2 = "rsi14" from fun hh => h (h5.trans hh.symm))]
  · simp only [getIndicatorField,
      if_neg (show ¬ key2 = "boll_upper" from fun hh => h (h6.trans hh.symm))]
  · simp only [getIndicatorField,
      if_neg (show ¬ key2 = "boll_middle" from fun hh => h (h7.trans hh.symm))]
  · simp only [getIndicatorField,
      if_neg (show ¬ key2 = "boll_lower" from fun hh => h (h8.trans hh.symm))]
  · simp only [getIndicatorField,
      if_neg (show ¬ key2 = "atr14" from fun hh => h (h9.trans hh.symm))]
  · simp only [getIndicatorField,
      if_neg (show ¬ key2 = "volume_ma5" from fun hh => h (h10.trans hh.symm))]
  · rfl

theorem getIndicatorField_zero (key : String) :
    getIndicatorField IndicatorResult.zero key = 0 := by
  simp only [getIndicatorField, IndicatorResult.zero]
  split_ifs <;> rfl

theorem foldlM_nums_ok : ∀ (kvs : List (String × Json)) (r : IndicatorResult),
    (∀ kv ∈ kvs, ∃ q : ℚ, kv.2 = Json.num q) →
    ∃ r2,
      (kvs.foldlM
        (fun r kv =>
          match kv.2 with
          | Json.num v => some (setIndicatorField r kv.1 v)
          | Json.null => some r
          | _ => if kv.1 ∈ indicatorKeys then none else some r)
        r) = some r2 ∧
      ∀ key, (∀ kv ∈ kvs, kv.1 ≠ key) →
        getIndicatorField r2 key = getIndicatorField r key
  | [], r, _ => ⟨r, rfl, fun _ _ => rfl⟩
  | (k, v) :: t, r, h => by
    rcases h (k, v) (List.mem_cons_self _ _) with ⟨q, hq⟩
    rcases foldlM_nums_ok t (setIndicatorField r k q)
      (fun kv hkv => h kv (List.mem_cons_of_mem _ hkv)) with ⟨r2, hr2, hpres⟩
    refine ⟨r2, ?_, ?_⟩
    · subst hq
      exact hr2
    · intro key hkey
      rw [hpres key fun kv hkv => hkey kv (List.mem_cons_of_mem _ hkv)]
      exact getIndicatorField_set_ne r k key q (hkey (k, v) (List.mem_cons_self _ _))

/-- C9: when the whole response is a valid JSON object whose members all carry
numeric values, `ParseIndicatorResponse` succeeds through the direct decode
and every indicator field whose key is absent from the object is exactly 0
(the Go zero value), never an error and never any other default. -/
theorem parse_missing_fields_zero (parse : String → Option Json)
    (regexExtract braceExtract : String → Option String) (response : String)
    (kvs : List (String × Json))
    (hparse : parse response = some (Json.obj kvs))
    (hnum : ∀ kv ∈ kvs, ∃ q : ℚ, kv.2 = Json.num q) :
    ∃ r, ParseIndicatorResponse parse regexExtract braceExtract response = some r ∧
      ∀ key, (∀ kv ∈ kvs, kv.1 ≠ key) → getIndicatorField r key = 0 := by
  rcases foldlM_nums_ok kvs IndicatorResult.zero hnum with ⟨r, hr, hpres⟩
  refine ⟨r, ?_, ?_⟩
  · simp only [ParseIndicatorResponse, hparse]
    rw [show (some (Json.obj kvs) >>= unmarshalIndicatorResult :
      Option IndicatorResult) = some r from hr]
  · intro key hkey
    rw [hpres key hkey, getIndicatorField_zero]

theorem parse_missing_fields_zero_witness :
    ((ParseIndicatorResponse (fun _ => some (Json.obj [("ma20", Json.num 5)]))
        (fun _ => none) (fun _ => none) "resp").isSome = true) ∧
    ((ParseIndicatorResponse (fun _ => some (Json.obj [("ma20", Json.num 5)]))
        (fun _ => none) (fun _ => none) "resp").map
      (fun r => getIndicatorField r "ema12") = some 0) := by
  rcases parse_missing_fields_zero (fun _ => some (Json.obj [("ma20", Json.num 5)]))
      (fun _ => none) (fun _ => none) "resp" [("ma20", Json.num 5)] rfl
      (by
        intro kv hkv
        rcases List.mem_singleton.1 hkv with rfl
        exact ⟨5, rfl⟩) with ⟨r, hr, hzero⟩
  rw [hr]
  refine ⟨rfl, ?_⟩
  rw [Option.map_some']
  rw [hzero "ema12" (by
    intro kv hkv
    rcases List.mem_singleton.1 hkv with rfl
    decide)]

end FinBench
